import Mathlib

/-!
Verification of the rft file-transfer protocol core against its
natural-language specification.

The development shallowly embeds the Rust sources:

* `src/wire.rs` — packets and frames as the byte buffers the Rust structs
  own (`bytes`, `header_bytes`, `payload_bytes`), with `assemble`,
  `parse` and `validate_checksum` translated byte for byte;
* `src/stream_handler.rs` — the Read, Write and Checksum arms of
  `stream_handler` as pure functions over the frame sequences they
  consume and emit, with the filesystem abstracted as the contents the
  opened file would yield;
* `src/conn_handler.rs` — the RX packet-switch step and the initial
  congestion state of `connection_handler`.

Bytes are `Nat`s below 256, buffers are `List Nat`, and machine-integer
truncation is explicit (`% 256`, `% 65536`, and `% 2^24` for the stored
CRC field).
-/

set_option maxRecDepth 100000

namespace RFT

/-- Outcome of running a fallible Rust function: a panic (e.g. an
out-of-range `Bytes::split_to` or slice index), an `anyhow::Error`, or a
successful value. -/
inductive RustResult (α : Type) where
  | panicked
  | errored (msg : String)
  | ok (val : α)
  deriving DecidableEq, Repr

/-- Little-endian value of a byte list (each entry weighs 256 times the
previous one). -/
def leVal : List Nat → Nat
  | [] => 0
  | b :: bs => b + 256 * leVal bs

/-- The two little-endian bytes `v.to_le_bytes()[..2]` of a length cast
to `u16` range. -/
def u16le (v : Nat) : List Nat := [v % 256, v / 256 % 256]

/-- The four little-endian bytes of a `u32`. -/
def u32le (v : Nat) : List Nat :=
  [v % 256, v / 256 % 256, v / 65536 % 256, v / 16777216 % 256]

/-- `u64_to_six_u8` from `wire.rs`: the low six little-endian bytes of a
`u64` offset or length. -/
def u64_to_six_u8 (v : Nat) : List Nat :=
  [v % 256, v / 256 % 256, v / 65536 % 256, v / 16777216 % 256,
   v / 4294967296 % 256, v / 1099511627776 % 256]

/-- Read `n` bytes at offset `off` of a buffer as a little-endian value. -/
def readLE (bs : List Nat) (off n : Nat) : Nat :=
  leVal ((bs.drop off).take n)

/-- One bit-iteration of the (reflected, polynomial `0xEDB88320`)
CRC-32 used by the external `crc32fast` crate.  Modelled from the spec:
"CRC-32" — the crate itself is not part of this repository. -/
def crc32Round (crc : Nat) : Nat :=
  if crc % 2 = 1 then (crc / 2) ^^^ 0xEDB88320 else crc / 2

/-- Absorb one byte into a CRC-32 state. -/
def crc32Byte (crc b : Nat) : Nat :=
  crc32Round (crc32Round (crc32Round (crc32Round
    (crc32Round (crc32Round (crc32Round (crc32Round (crc ^^^ b))))))))

/-- Modelled from the spec: the IEEE CRC-32 of a byte buffer, as
computed by the external `crc32fast::hash` / `Hasher` (init `0xFFFFFFFF`,
reflected polynomial, final xor). -/
def crc32 (bs : List Nat) : Nat :=
  (bs.foldl crc32Byte 0xFFFFFFFF) ^^^ 0xFFFFFFFF

/-- The frame sum type of `wire.rs`.  Each constructor carries exactly
the byte buffers its Rust counterpart owns: `bytes` for the four
fixed-size control frames, `header_bytes` and `payload_bytes` for the
eight payload-carrying frames. -/
inductive Frame where
  | ack (bytes : List Nat)
  | exit (bytes : List Nat)
  | connIdChange (bytes : List Nat)
  | flowControl (bytes : List Nat)
  | answer (header_bytes payload_bytes : List Nat)
  | error (header_bytes payload_bytes : List Nat)
  | data (header_bytes payload_bytes : List Nat)
  | read (header_bytes payload_bytes : List Nat)
  | write (header_bytes payload_bytes : List Nat)
  | checksum (header_bytes payload_bytes : List Nat)
  | stat (header_bytes payload_bytes : List Nat)
  | list (header_bytes payload_bytes : List Nat)
  deriving DecidableEq, Repr

/-- `AckFrame::new(packet_id)`: type id 0 followed by the packed
little-endian `u32` packet id. -/
def AckFrame.new (packet_id : Nat) : Frame := .ack (0 :: u32le packet_id)

/-- `ExitFrame::new()`: type id 1. -/
def ExitFrame.new : Frame := .exit [1]

/-- `ConnIdChangeFrame::new(old_cid, new_cid)`. -/
def ConnIdChangeFrame.new (old_cid new_cid : Nat) : Frame :=
  .connIdChange (2 :: (u32le old_cid ++ u32le new_cid))

/-- `FlowControlFrame::new(window_size)`. -/
def FlowControlFrame.new (window_size : Nat) : Frame :=
  .flowControl (3 :: u32le window_size)

/-- `AnswerFrame::new(stream_id, payload)`. -/
def AnswerFrame.new (stream_id : Nat) (payload : List Nat) : Frame :=
  .answer (4 :: u16le stream_id) payload

/-- `ErrorFrame::new(stream_id, message)`, with the message already in
byte form. -/
def ErrorFrame.new (stream_id : Nat) (payload : List Nat) : Frame :=
  .error (5 :: u16le stream_id) payload

/-- `DataFrame::new(stream_id, offset, payload)`. -/
def DataFrame.new (stream_id offset : Nat) (payload : List Nat) : Frame :=
  .data (6 :: (u16le stream_id ++ u64_to_six_u8 offset)) payload

/-- `ReadFrame::new(stream_id, flags, offset, length, checksum, path)`,
with the path already in byte form. -/
def ReadFrame.new (stream_id flags offset length chk : Nat)
    (path : List Nat) : Frame :=
  .read (7 :: (u16le stream_id ++ flags % 256 ::
    (u64_to_six_u8 offset ++ u64_to_six_u8 length ++ u32le chk))) path

/-- `WriteFrame::new(stream_id, offset, length, path)`. -/
def WriteFrame.new (stream_id offset length : Nat) (path : List Nat) : Frame :=
  .write (8 :: (u16le stream_id ++ u64_to_six_u8 offset ++ u64_to_six_u8 length)) path

/-- `ChecksumFrame::new(stream_id, path)`. -/
def ChecksumFrame.new (stream_id : Nat) (path : List Nat) : Frame :=
  .checksum (9 :: u16le stream_id) path

/-- `StatFrame::new(stream_id, path)`. -/
def StatFrame.new (stream_id : Nat) (path : List Nat) : Frame :=
  .stat (10 :: u16le stream_id) path

/-- `ListFrame::new(stream_id, path)`. -/
def ListFrame.new (stream_id : Nat) (path : List Nat) : Frame :=
  .list (11 :: u16le stream_id) path

/-- `Frame::assemble`: the fixed-size frames emit their stored bytes;
each payload-carrying frame emits its header bytes, then
`payload_bytes.len().to_le_bytes()[..2]` (the length reduced mod 65536,
little-endian), then the full payload. -/
def Frame.assemble : Frame → List Nat
  | .ack b => b
  | .exit b => b
  | .connIdChange b => b
  | .flowControl b => b
  | .answer h p => h ++ u16le p.length ++ p
  | .error h p => h ++ u16le p.length ++ p
  | .data h p => h ++ u16le p.length ++ p
  | .read h p => h ++ u16le p.length ++ p
  | .write h p => h ++ u16le p.length ++ p
  | .checksum h p => h ++ u16le p.length ++ p
  | .stat h p => h ++ u16le p.length ++ p
  | .list h p => h ++ u16le p.length ++ p

/-- The header bytes a frame owns (the whole buffer for the fixed-size
frames). -/
def Frame.headerBytes : Frame → List Nat
  | .ack b => b
  | .exit b => b
  | .connIdChange b => b
  | .flowControl b => b
  | .answer h _ => h
  | .error h _ => h
  | .data h _ => h
  | .read h _ => h
  | .write h _ => h
  | .checksum h _ => h
  | .stat h _ => h
  | .list h _ => h

/-- The payload bytes a frame owns (empty for the fixed-size frames). -/
def Frame.payloadBytes : Frame → List Nat
  | .ack _ => []
  | .exit _ => []
  | .connIdChange _ => []
  | .flowControl _ => []
  | .answer _ p => p
  | .error _ p => p
  | .data _ p => p
  | .read _ p => p
  | .write _ p => p
  | .checksum _ p => p
  | .stat _ p => p
  | .list _ p => p

/-- Replace a frame's payload, keeping its variant and header bytes (a
no-op on the fixed-size frames). -/
def Frame.withPayload : Frame → List Nat → Frame
  | .ack b, _ => .ack b
  | .exit b, _ => .exit b
  | .connIdChange b, _ => .connIdChange b
  | .flowControl b, _ => .flowControl b
  | .answer h _, q => .answer h q
  | .error h _, q => .error h q
  | .data h _, q => .data h q
  | .read h _, q => .read h q
  | .write h _, q => .write h q
  | .checksum h _, q => .checksum h q
  | .stat h _, q => .stat h q
  | .list h _, q => .list h q

/-- Whether the variant carries a 2-byte length-prefixed payload
(Answer, Error, Data, Read, Write, Checksum, Stat, List). -/
def Frame.hasLenPrefix : Frame → Bool
  | .ack _ => false
  | .exit _ => false
  | .connIdChange _ => false
  | .flowControl _ => false
  | _ => true

/-- The header buffer has the packed size of the variant's Rust header
struct and starts with the variant's `TYPE_ID` byte. -/
def Frame.wfHeader : Frame → Bool
  | .ack b => b.length == 5 && b.getD 0 99 == 0
  | .exit b => b.length == 1 && b.getD 0 99 == 1
  | .connIdChange b => b.length == 9 && b.getD 0 99 == 2
  | .flowControl b => b.length == 5 && b.getD 0 99 == 3
  | .answer h _ => h.length == 3 && h.getD 0 99 == 4
  | .error h _ => h.length == 3 && h.getD 0 99 == 5
  | .data h _ => h.length == 9 && h.getD 0 99 == 6
  | .read h _ => h.length == 20 && h.getD 0 99 == 7
  | .write h _ => h.length == 15 && h.getD 0 99 == 8
  | .checksum h _ => h.length == 3 && h.getD 0 99 == 9
  | .stat h _ => h.length == 3 && h.getD 0 99 == 10
  | .list h _ => h.length == 3 && h.getD 0 99 == 11

/-- Well-formed frame: well-formed header and payload short enough for
the 2-byte length prefix (every frame built by the `::new` constructors
from a payload of at most 65535 bytes satisfies this). -/
def Frame.wf (f : Frame) : Bool :=
  f.wfHeader && f.payloadBytes.length < 65536

/-- `Bytes::split_to(n)`: the first `n` bytes and the rest; `none`
models the panic when `n` exceeds the buffer length. -/
def splitTo (bs : List Nat) (n : Nat) : Option (List Nat × List Nat) :=
  if n ≤ bs.length then some (bs.take n, bs.drop n) else none

/-- Shared shape of the fixed-size `parse` impls: split off the packed
header, build the frame. -/
def parseFixed (n : Nat) (ctor : List Nat → Frame) (bs : List Nat) :
    RustResult (Frame × List Nat) :=
  match splitTo bs n with
  | some (h, r) => .ok (ctor h, r)
  | none => .panicked

/-- Shared shape of the length-prefixed `parse` impls: split off the
packed header, two length bytes (`length_bytes[0] | length_bytes[1] << 8`),
then that many payload bytes. -/
def parseLenPrefixed (n : Nat) (ctor : List Nat → List Nat → Frame)
    (bs : List Nat) : RustResult (Frame × List Nat) :=
  match splitTo bs n with
  | none => .panicked
  | some (h, r1) =>
    match splitTo r1 2 with
    | none => .panicked
    | some (lb, r2) =>
      match splitTo r2 (lb.getD 0 0 + lb.getD 1 0 * 256) with
      | none => .panicked
      | some (p, r3) => .ok (ctor h p, r3)

/-- One round of the frame-dispatch `match code` in `Packet::parse`. -/
def parseOne (code : Nat) (bs : List Nat) : RustResult (Frame × List Nat) :=
  match code with
  | 0 => parseFixed 5 Frame.ack bs
  | 1 => parseFixed 1 Frame.exit bs
  | 2 => parseFixed 9 Frame.connIdChange bs
  | 3 => parseFixed 5 Frame.flowControl bs
  | 4 => parseLenPrefixed 3 Frame.answer bs
  | 5 => parseLenPrefixed 3 Frame.error bs
  | 6 => parseLenPrefixed 9 Frame.data bs
  | 7 => parseLenPrefixed 20 Frame.read bs
  | 8 => parseLenPrefixed 15 Frame.write bs
  | 9 => parseLenPrefixed 3 Frame.checksum bs
  | 10 => parseLenPrefixed 3 Frame.stat bs
  | 11 => parseLenPrefixed 3 Frame.list bs
  | _ => .errored "Unknown frame type"

/-- The `while !frame_bytes.is_empty()` loop of `Packet::parse`.  Every
successful round consumes at least the one-byte type id, so any fuel
above the buffer length is enough; the theorems below only ever run it
on such fuel. -/
def parseFrames : Nat → List Nat → RustResult (List Frame)
  | _, [] => .ok []
  | 0, _ :: _ => .panicked
  | fuel + 1, code :: rest =>
    match parseOne code (code :: rest) with
    | .panicked => .panicked
    | .errored m => .errored m
    | .ok (f, r) =>
      match parseFrames fuel r with
      | .panicked => .panicked
      | .errored m => .errored m
      | .ok fs => .ok (f :: fs)

/-- `Packet` of `wire.rs`: the owned header bytes and the frame list. -/
structure Packet where
  header_bytes : List Nat
  frames : List Frame
  deriving DecidableEq, Repr

/-- `Packet::new(connection_id, packet_id)`: version 1, zeroed 3-byte
checksum placeholder, no frames. -/
def Packet.new (connection_id packet_id : Nat) : Packet :=
  ⟨1 :: (u32le connection_id ++ u32le packet_id ++ [0, 0, 0]), []⟩

/-- `Packet::add_frame`. -/
def Packet.add_frame (p : Packet) (f : Frame) : Packet :=
  { p with frames := p.frames ++ [f] }

/-- Store a 24-bit checksum into bytes 9..11 of a buffer, as the three
indexed assignments at the end of `Packet::assemble` do. -/
def patch24 (bs : List Nat) (c : Nat) : List Nat :=
  ((bs.set 9 (c % 256)).set 10 (c / 256 % 256)).set 11 (c / 65536 % 256)

/-- Bytes 9..11 of the buffer zeroed — the state over which both
`assemble` and `validate_checksum` run the CRC. -/
def zero3 (bs : List Nat) : List Nat :=
  ((bs.set 9 0).set 10 0).set 11 0

/-- `Packet::assemble`: concatenate the header bytes and every frame's
assembled bytes, zero the three checksum bytes, hash, keep the CRC-32
low 24 bits, and patch them back in little-endian order. -/
def Packet.assemble (p : Packet) : List Nat :=
  let bytes := p.header_bytes ++ (p.frames.map Frame.assemble).flatten
  let zeroed := zero3 bytes
  patch24 zeroed (crc32 zeroed % 16777216)

/-- `Packet::validate_checksum`: compare the stored 24-bit field with
the CRC-32 low 24 bits of header-with-zeroed-checksum plus body, hashed
as the three `hasher.update` segments.  `none` models the panic of the
slice indexing on buffers shorter than the 12-byte packet header. -/
def Packet.validate_checksum (bs : List Nat) : Option Bool :=
  if bs.length < 12 then none
  else
    some (readLE bs 9 3 == crc32 (bs.take 9 ++ [0, 0, 0] ++ bs.drop 12) % 16777216)

/-- `Packet::parse`: validate the checksum, split off the 12 header
bytes, then consume frames until the buffer is empty. -/
def Packet.parse (bs : List Nat) : RustResult Packet :=
  match Packet.validate_checksum bs with
  | none => .panicked
  | some false => .errored "Checksum validation failed"
  | some true =>
    match parseFrames (bs.drop 12).length (bs.drop 12) with
    | .panicked => .panicked
    | .errored m => .errored m
    | .ok fs => .ok ⟨bs.take 12, fs⟩

/-- `Packet::version()`. -/
def Packet.version (p : Packet) : Nat := p.header_bytes.getD 0 0

/-- `Packet::connection_id()`. -/
def Packet.connection_id (p : Packet) : Nat := readLE p.header_bytes 1 4

/-- `Packet::packet_id()`. -/
def Packet.packet_id (p : Packet) : Nat := readLE p.header_bytes 5 4

/-- `PacketHeader::checksum()`: the stored 24-bit little-endian field. -/
def Packet.checksumField (p : Packet) : Nat := readLE p.header_bytes 9 3

/-- The packet built by `Packet::new` followed by `add_frame` for each
listed frame, in order. -/
def buildPacket (connection_id packet_id : Nat) (frames : List Frame) : Packet :=
  frames.foldl Packet.add_frame (Packet.new connection_id packet_id)

/-- Truncation to 32 bits. -/
def w32 (x : Nat) : Nat := x % 4294967296

/-- Right-rotation of a 32-bit word by `n` places. -/
def rotr (n x : Nat) : Nat := w32 (x / 2 ^ n ||| x * 2 ^ (32 - n))

/-- The 64 SHA-256 round constants. -/
def shaK : List Nat :=
  [1116352408, 1899447441, 3049323471, 3921009573, 961987163, 1508970993,
   2453635748, 2870763221, 3624381080, 310598401, 607225278, 1426881987,
   1925078388, 2162078206, 2614888103, 3248222580, 3835390401, 4022224774,
   264347078, 604807628, 770255983, 1249150122, 1555081692, 1996064986,
   2554220882, 2821834349, 2952996808, 3210313671, 3336571891, 3584528711,
   113926993, 338241895, 666307205, 773529912, 1294757372, 1396182291,
   1695183700, 1986661051, 2177026350, 2456956037, 2730485921, 2820302411,
   3259730800, 3345764771, 3516065817, 3600352804, 4094571909, 275423344,
   430227734, 506948616, 659060556, 883997877, 958139571, 1322822218,
   1537002063, 1747873779, 1955562222, 2024104815, 2227730452, 2361852424,
   2428436474, 2756734187, 3204031479, 3329325298]

/-- The SHA-256 initial hash words. -/
def shaH0 : List Nat :=
  [1779033703, 3144134277, 1013904242, 2773480762, 1359893119, 2600822924,
   528734635, 1541459225]

/-- Split a buffer into chunks of `n` bytes (fuel-driven; the fuel is the
buffer length, which suffices for every positive `n`). -/
def chunksOfGo (n : Nat) : Nat → List Nat → List (List Nat)
  | 0, _ => []
  | _, [] => []
  | fuel + 1, l => l.take n :: chunksOfGo n fuel (l.drop n)

/-- Split a buffer into chunks of `n` bytes. -/
def chunksOf (n : Nat) (l : List Nat) : List (List Nat) :=
  chunksOfGo n l.length l

/-- Big-endian 32-bit word from (up to) four bytes. -/
def be4 (l : List Nat) : Nat :=
  l.getD 0 0 * 16777216 + l.getD 1 0 * 65536 + l.getD 2 0 * 256 + l.getD 3 0

/-- Big-endian four bytes of a 32-bit word. -/
def toBE4 (x : Nat) : List Nat :=
  [x / 16777216 % 256, x / 65536 % 256, x / 256 % 256, x % 256]

/-- Big-endian eight bytes of a 64-bit value (the padded bit length). -/
def toBE8 (x : Nat) : List Nat :=
  [x / 2 ^ 56 % 256, x / 2 ^ 48 % 256, x / 2 ^ 40 % 256, x / 2 ^ 32 % 256,
   x / 16777216 % 256, x / 65536 % 256, x / 256 % 256, x % 256]

/-- SHA-256 message padding: a `0x80` byte, zeros to 56 mod 64, and the
bit length as a big-endian 64-bit value. -/
def shaPad (ms : List Nat) : List Nat :=
  ms ++ 128 :: List.replicate ((64 - (ms.length + 9) % 64) % 64) 0 ++ toBE8 (8 * ms.length)

/-- Append the next word of the SHA-256 message schedule. -/
def extendWStep (w : List Nat) : List Nat :=
  let n := w.length
  let s0 := rotr 7 (w.getD (n - 15) 0) ^^^ rotr 18 (w.getD (n - 15) 0) ^^^
    w.getD (n - 15) 0 / 2 ^ 3
  let s1 := rotr 17 (w.getD (n - 2) 0) ^^^ rotr 19 (w.getD (n - 2) 0) ^^^
    w.getD (n - 2) 0 / 2 ^ 10
  w ++ [w32 (w.getD (n - 16) 0 + s0 + w.getD (n - 7) 0 + s1)]

/-- Extend a 16-word block schedule by the given number of words. -/
def extendW : Nat → List Nat → List Nat
  | 0, w => w
  | k + 1, w => extendW k (extendWStep w)

/-- The SHA-256 working state `(a, b, c, d, e, f, g, h)`. -/
abbrev ShaState := Nat × Nat × Nat × Nat × Nat × Nat × Nat × Nat

/-- One SHA-256 compression round, consuming one `(wᵢ, kᵢ)` pair. -/
def shaRound (st : ShaState) (wk : Nat × Nat) : ShaState :=
  let (a, b, c, d, e, f, g, h) := st
  let S1 := rotr 6 e ^^^ rotr 11 e ^^^ rotr 25 e
  let ch := (e &&& f) ^^^ ((e ^^^ 4294967295) &&& g)
  let temp1 := w32 (h + S1 + ch + wk.2 + wk.1)
  let S0 := rotr 2 a ^^^ rotr 13 a ^^^ rotr 22 a
  let maj := (a &&& b) ^^^ (a &&& c) ^^^ (b &&& c)
  let temp2 := w32 (S0 + maj)
  (w32 (temp1 + temp2), a, b, c, w32 (d + temp1), e, f, g)

/-- The eight working variables as a list. -/
def shaStateToList (st : ShaState) : List Nat :=
  [st.1, st.2.1, st.2.2.1, st.2.2.2.1, st.2.2.2.2.1, st.2.2.2.2.2.1,
   st.2.2.2.2.2.2.1, st.2.2.2.2.2.2.2]

/-- Compress one 64-byte block into the running eight hash words. -/
def shaCompress (h : List Nat) (block : List Nat) : List Nat :=
  let ws := extendW 48 ((chunksOf 4 block).map be4)
  let init : ShaState := (h.getD 0 0, h.getD 1 0, h.getD 2 0, h.getD 3 0,
    h.getD 4 0, h.getD 5 0, h.getD 6 0, h.getD 7 0)
  List.zipWith (fun x y => w32 (x + y)) h
    (shaStateToList ((ws.zip shaK).foldl shaRound init))

/-- Modelled from the spec: the SHA-256 digest (32 bytes) of a byte
sequence, standing in for the external `ring::digest` used by
`sha256_digest` in `stream_handler.rs`.  Feeding the file through in
1024-byte chunks, as `sha256_digest` does, hashes the same byte
sequence. -/
def sha256 (ms : List Nat) : List Nat :=
  (((chunksOf 64 (shaPad ms)).foldl shaCompress shaH0).map toBE4).flatten

/-- Frames a stream handler emits, with the fields the Rust constructors
receive: `DataFrame::new`, `AnswerFrame::new`, `ErrorFrame::new` (whose
message stays a string here), and `AckFrame::new` for the connection
handler. -/
inductive SFrame where
  | data (streamId offset : Nat) (payload : List Nat)
  | answer (streamId : Nat) (payload : List Nat)
  | error (streamId : Nat) (message : String)
  | ack (packetId : Nat)
  deriving DecidableEq, Repr

/-- The Read command's fields used by the Read arm (the path is replaced
by the open-file outcome passed separately). -/
structure ReadCmd where
  streamId : Nat
  offset : Nat
  length : Nat
  deriving DecidableEq, Repr

/-- The `loop` of the Read arm of `stream_handler` (lines 109–144 of
`stream_handler.rs`): `cursor` is the `BufReader` position, `lastOffset`
and `fin` the loop variables, and each iteration reads up to 128 bytes,
truncates at `rt`, and emits one Data frame.  The fuel exceeds the
number of iterations whenever it exceeds `rt - lastOffset + 1`; `none`
reports exhausted fuel and is proved unreachable below. -/
def readLoop (sid : Nat) (file : List Nat) (rt : Nat) :
    Nat → Nat → Bool → Nat → Option (List SFrame)
  | _, _, _, 0 => none
  | cursor, lastOffset, fin, fuel + 1 =>
    if rt ≤ lastOffset ∧ fin then some []
    else
      let raw := min 128 (file.length - cursor)
      let buf := (file.drop cursor).take raw
      let ds1 := if rt ≤ lastOffset then 0 else raw
      let fin1 := if rt ≤ lastOffset then true else fin
      let ds2 := if rt ≤ lastOffset + ds1 then ds1 - (lastOffset + ds1 - rt) else ds1
      match readLoop sid file rt (cursor + raw) (lastOffset + ds2) fin1 fuel with
      | none => none
      | some rest => some (.data sid lastOffset (buf.take ds2) :: rest)

/-- `read_target` of the Read arm: the file size when `length == 0`,
else `min(offset + length, file_size)`. -/
def readTarget (cmd : ReadCmd) (fileSize : Nat) : Nat :=
  if cmd.length = 0 then fileSize else min (cmd.offset + cmd.length) fileSize

/-- The Read arm of `stream_handler` (lines 45–147): on open failure an
Error frame with the OS error string; past-EOF reads an Error frame;
otherwise the Data-frame loop.  `openResult` stands for the filesystem:
the file's bytes, or the error string of a failed open. -/
def handleRead (cmd : ReadCmd) (openResult : Except String (List Nat)) :
    Option (List SFrame) :=
  match openResult with
  | .error e => some [.error cmd.streamId e]
  | .ok file =>
    if cmd.offset + cmd.length > file.length then
      some [.error cmd.streamId "You\x27re trying to read past EOF"]
    else
      readLoop cmd.streamId file (readTarget cmd file.length)
        cmd.offset cmd.offset false (file.length + 2)

/-- A frame arriving on a write stream: a Data frame with its offset and
payload, or any other frame (which, like a closed channel, takes the
`else` branch of the Write arm's loop). -/
inductive InFrame where
  | data (offset : Nat) (payload : List Nat)
  | other
  deriving DecidableEq, Repr

/-- The Write command's fields used by the Write arm. -/
structure WriteCmd where
  streamId : Nat
  offset : Nat
  length : Nat
  deriving DecidableEq, Repr

/-- The receive `loop` of the Write arm of `stream_handler` (lines
198–248): an empty Data frame ends the transfer; a Data frame whose
offset is not the expected one elicits an Error frame and breaks out of
the loop; an in-order Data frame is written (appended to `written`,
which models the bytes handed to `write_all`); anything else — including
a closed input channel, modelled by the empty list — elicits an Error
frame and returns.  The result is the written bytes and the emitted
frames.  The 5-second timeout is real-time behaviour and is not
modelled. -/
def writeLoop (sid : Nat) : Nat → List Nat → List InFrame → List Nat × List SFrame
  | _, written, [] => (written, [.error sid "Illegal Frame Received"])
  | _, written, .other :: _ => (written, [.error sid "Illegal Frame Received"])
  | expected, written, .data o p :: rest =>
    if p.length = 0 then (written, [])
    else if expected ≠ o then
      (written, [.error sid "Write offset mismatch, aborting..."])
    else writeLoop sid (expected + p.length) (written ++ p) rest

/-- The Write arm of `stream_handler` (lines 149–250): open failure or a
file size different from the commanded offset elicit an Error frame;
otherwise the receive loop runs with `last_offset = cmd.offset`.
`openResult` carries the opened (or created) file's current bytes. -/
def handleWrite (cmd : WriteCmd) (openResult : Except String (List Nat))
    (input : List InFrame) : List Nat × List SFrame :=
  match openResult with
  | .error e => ([], [.error cmd.streamId e])
  | .ok contents =>
    if contents.length ≠ cmd.offset then
      ([], [.error cmd.streamId "Write offset does not match file size"])
    else writeLoop cmd.streamId cmd.offset [] input

/-- The Checksum arm of `stream_handler` (lines 252–286): on a
successful open, one Answer frame carrying the SHA-256 digest of the
file; on open failure, one Error frame carrying the OS error string. -/
def handleChecksum (sid : Nat) (openResult : Except String (List Nat)) :
    List SFrame :=
  match openResult with
  | .ok contents => [.answer sid (sha256 contents)]
  | .error e => [.error sid e]

/-- Initial flow window of `connection_handler` (`conn_handler.rs` line
23): 2048 bytes. -/
def initFlowWnd : Nat := 2048

/-- Initial congestion state of `connection_handler` (`conn_handler.rs`
line 28): the tuple `(cwnd, ssthresh, in_congestion_avoidance)` starts
as `(4u32, u32::MAX, false)`. -/
def initCwnd : Nat × Nat × Bool := (4, 4294967295, false)

/-- One step of the RX switch task of `connection_handler` (lines
51–75): given `last_recvd_id` and the arriving packet's id, the updated
`last_recvd_id` and the Ack frames pushed to the mux, in order.  A first
packet adopts its id; an out-of-sequence id elicits a duplicate Ack for
`last_recvd_id`; in every case the unconditional per-packet Ack for the
packet's own id follows. -/
def rxStep (last_recvd_id packet_id : Nat) : Nat × List Frame :=
  if last_recvd_id = 0 then
    (packet_id, [AckFrame.new packet_id])
  else if packet_id ≠ last_recvd_id + 1 then
    (last_recvd_id, [AckFrame.new last_recvd_id, AckFrame.new packet_id])
  else
    (last_recvd_id + 1, [AckFrame.new packet_id])

/-- A sequence of Data frames on stream `sid` with consecutive offsets
from `off` and nonempty payloads. -/
def chunkedFrom (sid : Nat) : Nat → List SFrame → Prop
  | _, [] => True
  | off, .data sid2 off2 p :: rest =>
    sid2 = sid ∧ off2 = off ∧ p ≠ [] ∧ chunkedFrom sid (off + p.length) rest
  | _, _ :: _ => False

/-- Concatenation of the Data payloads of a frame sequence. -/
def payloadConcat : List SFrame → List Nat
  | [] => []
  | .data _ _ p :: rest => p ++ payloadConcat rest
  | _ :: rest => payloadConcat rest

/-- The UTF-8 (here: ASCII) bytes of the 123-byte Lorem-ipsum sentence
the repository's checksum test hashes. -/
def loremBytes : List Nat :=
  [76, 111, 114, 101, 109, 32, 105, 112, 115, 117, 109, 32, 100, 111, 108,
   111, 114, 32, 115, 105, 116, 32, 97, 109, 101, 116, 44, 32, 99, 111, 110,
   115, 101, 99, 116, 101, 116, 117, 114, 32, 97, 100, 105, 112, 105, 115,
   99, 105, 110, 103, 32, 101, 108, 105, 116, 44, 32, 115, 101, 100, 32,
   100, 111, 32, 101, 105, 117, 115, 109, 111, 100, 32, 116, 101, 109, 112,
   111, 114, 32, 105, 110, 99, 105, 100, 105, 100, 117, 110, 116, 32, 117,
   116, 32, 108, 97, 98, 111, 114, 101, 32, 101, 116, 32, 100, 111, 108,
   111, 114, 101, 32, 109, 97, 103, 110, 97, 32, 97, 108, 105, 113, 117,
   97, 46]

/-- The digest the spec expects for `loremBytes`
(`973153f86ec2da1748e63f0cf85b89835b42f8ee8018c549868a1308a19f6ca3`). -/
def loremDigest : List Nat :=
  [151, 49, 83, 248, 110, 194, 218, 23, 72, 230, 63, 12, 248, 91, 137, 131,
   91, 66, 248, 238, 128, 24, 197, 73, 134, 138, 19, 8, 161, 159, 108, 163]

/-- A datagram whose CRC is valid but whose single frame is a truncated
Answer frame: the type-id byte `4` with no header or length bytes
behind it. -/
def truncatedAnswerInput : List Nat :=
  patch24 [1, 0, 0, 0, 0, 0, 0, 0, 0, 0, 0, 0, 4]
    (crc32 [1, 0, 0, 0, 0, 0, 0, 0, 0, 0, 0, 0, 4] % 16777216)

/-- A datagram whose CRC is valid and whose frame section is the single
unknown type id `12`. -/
def unknownTypeInput : List Nat :=
  patch24 [1, 0, 0, 0, 0, 0, 0, 0, 0, 0, 0, 0, 12]
    (crc32 [1, 0, 0, 0, 0, 0, 0, 0, 0, 0, 0, 0, 12] % 16777216)

/- ------------------------------------------------------------------ -/
/- Theorems.                                                          -/
/- ------------------------------------------------------------------ -/

theorem splitTo_exact (l1 l2 : List Nat) (n : Nat) (h : l1.length = n) :
    splitTo (l1 ++ l2) n = some (l1, l2) := by
  subst h
  simp [splitTo, List.take_left, List.drop_left]

theorem parseFixed_exact (n : Nat) (ctor : List Nat → Frame) (b tail : List Nat)
    (h : b.length = n) : parseFixed n ctor (b ++ tail) = .ok (ctor b, tail) := by
  simp [parseFixed, splitTo_exact b tail n h]

theorem u16le_getD (v : Nat) :
    (u16le v).getD 0 0 + (u16le v).getD 1 0 * 256 = v % 65536 := by
  simp only [u16le, List.getD_cons_zero, List.getD_cons_succ]
  omega

theorem parseLenPrefixed_exact (n : Nat) (ctor : List Nat → List Nat → Frame)
    (hB p tail : List Nat) (hh : hB.length = n) :
    parseLenPrefixed n ctor (hB ++ u16le p.length ++ p ++ tail) =
      .ok (ctor hB (p.take (p.length % 65536)),
           p.drop (p.length % 65536) ++ tail) := by
  have h1 : hB ++ u16le p.length ++ p ++ tail =
      hB ++ (u16le p.length ++ (p ++ tail)) := by
    simp [List.append_assoc]
  have h2 : splitTo (hB ++ (u16le p.length ++ (p ++ tail))) n =
      some (hB, u16le p.length ++ (p ++ tail)) := splitTo_exact _ _ _ hh
  have h3 : splitTo (u16le p.length ++ (p ++ tail)) 2 =
      some (u16le p.length, p ++ tail) := splitTo_exact _ _ _ (by simp [u16le])
  have hm : p.length % 65536 ≤ (p ++ tail).length := by
    have h5 := Nat.mod_le p.length 65536
    simp only [List.length_append]
    omega
  have h4 : splitTo (p ++ tail) (p.length % 65536) =
      some ((p ++ tail).take (p.length % 65536),
            (p ++ tail).drop (p.length % 65536)) := by
    unfold splitTo
    rw [if_pos hm]
  have htake : (p ++ tail).take (p.length % 65536) = p.take (p.length % 65536) :=
    List.take_append_of_le_length (Nat.mod_le p.length 65536)
  have hdrop : (p ++ tail).drop (p.length % 65536) =
      p.drop (p.length % 65536) ++ tail :=
    List.drop_append_of_le_length (Nat.mod_le p.length 65536)
  rw [h1]
  simp only [parseLenPrefixed, h2, h3]
  rw [u16le_getD, h4, htake, hdrop]

theorem parseLenPrefixed_small (n : Nat) (ctor : List Nat → List Nat → Frame)
    (hB p tail : List Nat) (hh : hB.length = n) (hp : p.length < 65536) :
    parseLenPrefixed n ctor (hB ++ u16le p.length ++ p ++ tail) =
      .ok (ctor hB p, tail) := by
  rw [parseLenPrefixed_exact n ctor hB p tail hh]
  rw [Nat.mod_eq_of_lt hp]
  simp

theorem parseOne_assemble (f : Frame) (tail : List Nat) (hwf : f.wf = true) :
    ∃ c t, f.assemble = c :: t ∧ parseOne c (c :: (t ++ tail)) = .ok (f, tail) := by
  cases f with
  | ack b =>
    simp only [Frame.wf, Frame.wfHeader, Frame.payloadBytes, Bool.and_eq_true,
      beq_iff_eq, decide_eq_true_eq] at hwf
    obtain ⟨⟨hl, hd⟩, -⟩ := hwf
    rcases b with _ | ⟨b0, b'⟩
    · simp at hl
    · simp only [List.getD_cons_zero] at hd
      subst hd
      refine ⟨0, b', rfl, ?_⟩
      have : (0 : Nat) :: (b' ++ tail) = (0 :: b') ++ tail := rfl
      rw [this]
      simpa [parseOne] using parseFixed_exact 5 Frame.ack (0 :: b') tail hl
  | exit b =>
    simp only [Frame.wf, Frame.wfHeader, Frame.payloadBytes, Bool.and_eq_true,
      beq_iff_eq, decide_eq_true_eq] at hwf
    obtain ⟨⟨hl, hd⟩, -⟩ := hwf
    rcases b with _ | ⟨b0, b'⟩
    · simp at hl
    · simp only [List.getD_cons_zero] at hd
      subst hd
      refine ⟨1, b', rfl, ?_⟩
      have : (1 : Nat) :: (b' ++ tail) = (1 :: b') ++ tail := rfl
      rw [this]
      simpa [parseOne] using parseFixed_exact 1 Frame.exit (1 :: b') tail hl
  | connIdChange b =>
    simp only [Frame.wf, Frame.wfHeader, Frame.payloadBytes, Bool.and_eq_true,
      beq_iff_eq, decide_eq_true_eq] at hwf
    obtain ⟨⟨hl, hd⟩, -⟩ := hwf
    rcases b with _ | ⟨b0, b'⟩
    · simp at hl
    · simp only [List.getD_cons_zero] at hd
      subst hd
      refine ⟨2, b', rfl, ?_⟩
      have : (2 : Nat) :: (b' ++ tail) = (2 :: b') ++ tail := rfl
      rw [this]
      simpa [parseOne] using parseFixed_exact 9 Frame.connIdChange (2 :: b') tail hl
  | flowControl b =>
    simp only [Frame.wf, Frame.wfHeader, Frame.payloadBytes, Bool.and_eq_true,
      beq_iff_eq, decide_eq_true_eq] at hwf
    obtain ⟨⟨hl, hd⟩, -⟩ := hwf
    rcases b with _ | ⟨b0, b'⟩
    · simp at hl
    · simp only [List.getD_cons_zero] at hd
      subst hd
      refine ⟨3, b', rfl, ?_⟩
      have : (3 : Nat) :: (b' ++ tail) = (3 :: b') ++ tail := rfl
      rw [this]
      simpa [parseOne] using parseFixed_exact 5 Frame.flowControl (3 :: b') tail hl
  | answer h p =>
    simp only [Frame.wf, Frame.wfHeader, Frame.payloadBytes, Bool.and_eq_true,
      beq_iff_eq, decide_eq_true_eq] at hwf
    obtain ⟨⟨hl, hd⟩, hp⟩ := hwf
    rcases h with _ | ⟨h0, h'⟩
    · simp at hl
    · simp only [List.getD_cons_zero] at hd
      subst hd
      refine ⟨4, h' ++ (u16le p.length ++ p), by simp [Frame.assemble], ?_⟩
      have : (4 : Nat) :: (h' ++ (u16le p.length ++ p) ++ tail) =
          (4 :: h') ++ u16le p.length ++ p ++ tail := by
        simp [List.append_assoc]
      rw [this]
      simpa [parseOne] using
        parseLenPrefixed_small 3 Frame.answer (4 :: h') p tail hl hp
  | error h p =>
    simp only [Frame.wf, Frame.wfHeader, Frame.payloadBytes, Bool.and_eq_true,
      beq_iff_eq, decide_eq_true_eq] at hwf
    obtain ⟨⟨hl, hd⟩, hp⟩ := hwf
    rcases h with _ | ⟨h0, h'⟩
    · simp at hl
    · simp only [List.getD_cons_zero] at hd
      subst hd
      refine ⟨5, h' ++ (u16le p.length ++ p), by simp [Frame.assemble], ?_⟩
      have : (5 : Nat) :: (h' ++ (u16le p.length ++ p) ++ tail) =
          (5 :: h') ++ u16le p.length ++ p ++ tail := by
        simp [List.append_assoc]
      rw [this]
      simpa [parseOne] using
        parseLenPrefixed_small 3 Frame.error (5 :: h') p tail hl hp
  | data h p =>
    simp only [Frame.wf, Frame.wfHeader, Frame.payloadBytes, Bool.and_eq_true,
      beq_iff_eq, decide_eq_true_eq] at hwf
    obtain ⟨⟨hl, hd⟩, hp⟩ := hwf
    rcases h with _ | ⟨h0, h'⟩
    · simp at hl
    · simp only [List.getD_cons_zero] at hd
      subst hd
      refine ⟨6, h' ++ (u16le p.length ++ p), by simp [Frame.assemble], ?_⟩
      have : (6 : Nat) :: (h' ++ (u16le p.length ++ p) ++ tail) =
          (6 :: h') ++ u16le p.length ++ p ++ tail := by
        simp [List.append_assoc]
      rw [this]
      simpa [parseOne] using
        parseLenPrefixed_small 9 Frame.data (6 :: h') p tail hl hp
  | read h p =>
    simp only [Frame.wf, Frame.wfHeader, Frame.payloadBytes, Bool.and_eq_true,
      beq_iff_eq, decide_eq_true_eq] at hwf
    obtain ⟨⟨hl, hd⟩, hp⟩ := hwf
    rcases h with _ | ⟨h0, h'⟩
    · simp at hl
    · simp only [List.getD_cons_zero] at hd
      subst hd
      refine ⟨7, h' ++ (u16le p.length ++ p), by simp [Frame.assemble], ?_⟩
      have : (7 : Nat) :: (h' ++ (u16le p.length ++ p) ++ tail) =
          (7 :: h') ++ u16le p.length ++ p ++ tail := by
        simp [List.append_assoc]
      rw [this]
      simpa [parseOne] using
        parseLenPrefixed_small 20 Frame.read (7 :: h') p tail hl hp
  | write h p =>
    simp only [Frame.wf, Frame.wfHeader, Frame.payloadBytes, Bool.and_eq_true,
      beq_iff_eq, decide_eq_true_eq] at hwf
    obtain ⟨⟨hl, hd⟩, hp⟩ := hwf
    rcases h with _ | ⟨h0, h'⟩
    · simp at hl
    · simp only [List.getD_cons_zero] at hd
      subst hd
      refine ⟨8, h' ++ (u16le p.length ++ p), by simp [Frame.assemble], ?_⟩
      have : (8 : Nat) :: (h' ++ (u16le p.length ++ p) ++ tail) =
          (8 :: h') ++ u16le p.length ++ p ++ tail := by
        simp [List.append_assoc]
      rw [this]
      simpa [parseOne] using
        parseLenPrefixed_small 15 Frame.write (8 :: h') p tail hl hp
  | checksum h p =>
    simp only [Frame.wf, Frame.wfHeader, Frame.payloadBytes, Bool.and_eq_true,
      beq_iff_eq, decide_eq_true_eq] at hwf
    obtain ⟨⟨hl, hd⟩, hp⟩ := hwf
    rcases h with _ | ⟨h0, h'⟩
    · simp at hl
    · simp only [List.getD_cons_zero] at hd
      subst hd
      refine ⟨9, h' ++ (u16le p.length ++ p), by simp [Frame.assemble], ?_⟩
      have : (9 : Nat) :: (h' ++ (u16le p.length ++ p) ++ tail) =
          (9 :: h') ++ u16le p.length ++ p ++ tail := by
        simp [List.append_assoc]
      rw [this]
      simpa [parseOne] using
        parseLenPrefixed_small 3 Frame.checksum (9 :: h') p tail hl hp
  | stat h p =>
    simp only [Frame.wf, Frame.wfHeader, Frame.payloadBytes, Bool.and_eq_true,
      beq_iff_eq, decide_eq_true_eq] at hwf
    obtain ⟨⟨hl, hd⟩, hp⟩ := hwf
    rcases h with _ | ⟨h0, h'⟩
    · simp at hl
    · simp only [List.getD_cons_zero] at hd
      subst hd
      refine ⟨10, h' ++ (u16le p.length ++ p), by simp [Frame.assemble], ?_⟩
      have : (10 : Nat) :: (h' ++ (u16le p.length ++ p) ++ tail) =
          (10 :: h') ++ u16le p.length ++ p ++ tail := by
        simp [List.append_assoc]
      rw [this]
      simpa [parseOne] using
        parseLenPrefixed_small 3 Frame.stat (10 :: h') p tail hl hp
  | list h p =>
    simp only [Frame.wf, Frame.wfHeader, Frame.payloadBytes, Bool.and_eq_true,
      beq_iff_eq, decide_eq_true_eq] at hwf
    obtain ⟨⟨hl, hd⟩, hp⟩ := hwf
    rcases h with _ | ⟨h0, h'⟩
    · simp at hl
    · simp only [List.getD_cons_zero] at hd
      subst hd
      refine ⟨11, h' ++ (u16le p.length ++ p), by simp [Frame.assemble], ?_⟩
      have : (11 : Nat) :: (h' ++ (u16le p.length ++ p) ++ tail) =
          (11 :: h') ++ u16le p.length ++ p ++ tail := by
        simp [List.append_assoc]
      rw [this]
      simpa [parseOne] using
        parseLenPrefixed_small 3 Frame.list (11 :: h') p tail hl hp

theorem parseFrames_assemble (frames : List Frame) :
    ∀ fuel : Nat, (∀ f ∈ frames, f.wf = true) →
    ((frames.map Frame.assemble).flatten).length ≤ fuel →
    parseFrames fuel ((frames.map Frame.assemble).flatten) = .ok frames := by
  induction frames with
  | nil => intro fuel _ _; simp [parseFrames]
  | cons f fs ih =>
    intro fuel hwf hfuel
    obtain ⟨c, t, hft, hok⟩ :=
      parseOne_assemble f ((fs.map Frame.assemble).flatten) (hwf f (by simp))
    simp only [List.map_cons, List.flatten_cons, List.length_append] at hfuel ⊢
    rw [hft]
    have hlen : t.length + 1 + ((fs.map Frame.assemble).flatten).length ≤ fuel := by
      have : f.assemble.length = t.length + 1 := by rw [hft]; simp
      omega
    obtain ⟨m, rfl⟩ : ∃ m, fuel = m + 1 := ⟨fuel - 1, by omega⟩
    simp only [List.cons_append]
    simp only [parseFrames, hok]
    rw [ih m (fun g hg => hwf g (by simp [hg])) (by omega)]

theorem foldl_add_frame (fs : List Frame) :
    ∀ p : Packet, fs.foldl Packet.add_frame p = ⟨p.header_bytes, p.frames ++ fs⟩ := by
  induction fs with
  | nil => intro p; simp
  | cons f fs ih =>
    intro p
    rw [List.foldl_cons, ih]
    simp [Packet.add_frame]

theorem buildPacket_eq (cid pid : Nat) (frames : List Frame) :
    buildPacket cid pid frames =
      ⟨1 :: (u32le cid ++ u32le pid ++ [0, 0, 0]), frames⟩ := by
  rw [buildPacket, foldl_add_frame]
  simp [Packet.new]

theorem zero3_cons (x0 x1 x2 x3 x4 x5 x6 x7 x8 x9 x10 x11 : Nat) (t : List Nat) :
    zero3 (x0 :: x1 :: x2 :: x3 :: x4 :: x5 :: x6 :: x7 :: x8 :: x9 :: x10 :: x11 :: t) =
      x0 :: x1 :: x2 :: x3 :: x4 :: x5 :: x6 :: x7 :: x8 :: 0 :: 0 :: 0 :: t := rfl

theorem patch24_cons (x0 x1 x2 x3 x4 x5 x6 x7 x8 x9 x10 x11 : Nat) (t : List Nat)
    (c : Nat) :
    patch24 (x0 :: x1 :: x2 :: x3 :: x4 :: x5 :: x6 :: x7 :: x8 :: x9 :: x10 :: x11 :: t) c =
      x0 :: x1 :: x2 :: x3 :: x4 :: x5 :: x6 :: x7 :: x8 ::
        c % 256 :: c / 256 % 256 :: c / 65536 % 256 :: t := rfl

theorem take9_cons (x0 x1 x2 x3 x4 x5 x6 x7 x8 x9 x10 x11 : Nat) (t : List Nat) :
    (x0 :: x1 :: x2 :: x3 :: x4 :: x5 :: x6 :: x7 :: x8 :: x9 :: x10 :: x11 :: t).take 9 =
      [x0, x1, x2, x3, x4, x5, x6, x7, x8] := rfl

theorem take12_cons (x0 x1 x2 x3 x4 x5 x6 x7 x8 x9 x10 x11 : Nat) (t : List Nat) :
    (x0 :: x1 :: x2 :: x3 :: x4 :: x5 :: x6 :: x7 :: x8 :: x9 :: x10 :: x11 :: t).take 12 =
      [x0, x1, x2, x3, x4, x5, x6, x7, x8, x9, x10, x11] := rfl

theorem drop12_cons (x0 x1 x2 x3 x4 x5 x6 x7 x8 x9 x10 x11 : Nat) (t : List Nat) :
    (x0 :: x1 :: x2 :: x3 :: x4 :: x5 :: x6 :: x7 :: x8 :: x9 :: x10 :: x11 :: t).drop 12 =
      t := rfl

theorem readLE93_cons (x0 x1 x2 x3 x4 x5 x6 x7 x8 x9 x10 x11 : Nat) (t : List Nat) :
    readLE (x0 :: x1 :: x2 :: x3 :: x4 :: x5 :: x6 :: x7 :: x8 :: x9 :: x10 :: x11 :: t) 9 3 =
      x9 + 256 * (x10 + 256 * (x11 + 256 * 0)) := rfl

theorem length12_cons (x0 x1 x2 x3 x4 x5 x6 x7 x8 x9 x10 x11 : Nat) (t : List Nat) :
    (x0 :: x1 :: x2 :: x3 :: x4 :: x5 :: x6 :: x7 :: x8 :: x9 :: x10 :: x11 :: t).length =
      t.length + 12 := by
  simp

/-- The header of `Packet.new cid pid` as an explicit 12-byte cons chain
followed by the frame body. -/
theorem new_header_append (cid pid : Nat) (t : List Nat) :
    (1 :: (u32le cid ++ u32le pid ++ [0, 0, 0])) ++ t =
      1 :: cid % 256 :: cid / 256 % 256 :: cid / 65536 % 256 :: cid / 16777216 % 256 ::
      pid % 256 :: pid / 256 % 256 :: pid / 65536 % 256 :: pid / 16777216 % 256 ::
      0 :: 0 :: 0 :: t := by
  simp [u32le]

/-- C1. For every packet P built with `Packet::new` and
`Packet::add_frame` from well-formed frames (in particular frames whose
payloads are at most 65535 bytes), `Packet::parse (P.assemble())`
succeeds, and the resulting packet equals P: same version,
connection_id and packet_id, and the identical ordered frame list
(identical variants, header bytes and payloads). -/
theorem packet_parse_assemble_roundtrip (cid pid : Nat) (frames : List Frame)
    (hwf : ∀ f ∈ frames, f.wf = true) :
    ∃ q : Packet, Packet.parse ((buildPacket cid pid frames).assemble) = .ok q ∧
      q.version = (buildPacket cid pid frames).version ∧
      q.connection_id = (buildPacket cid pid frames).connection_id ∧
      q.packet_id = (buildPacket cid pid frames).packet_id ∧
      q.frames = (buildPacket cid pid frames).frames := by
  rw [buildPacket_eq]
  set body := (frames.map Frame.assemble).flatten with hbody
  rw [Packet.assemble]
  simp only
  rw [new_header_append cid pid body, zero3_cons]
  set c := crc32 (1 :: cid % 256 :: cid / 256 % 256 :: cid / 65536 % 256 ::
    cid / 16777216 % 256 :: pid % 256 :: pid / 256 % 256 :: pid / 65536 % 256 ::
    pid / 16777216 % 256 :: 0 :: 0 :: 0 :: body) % 16777216 with hc
  have hclt : c < 16777216 := Nat.mod_lt _ (by norm_num)
  rw [patch24_cons]
  rw [Packet.parse, Packet.validate_checksum]
  rw [length12_cons]
  rw [if_neg (by omega)]
  rw [readLE93_cons, take9_cons, drop12_cons]
  have hcrcarg :
      ([1, cid % 256, cid / 256 % 256, cid / 65536 % 256, cid / 16777216 % 256,
        pid % 256, pid / 256 % 256, pid / 65536 % 256, pid / 16777216 % 256] :
        List Nat) ++ [0, 0, 0] ++ body =
      1 :: cid % 256 :: cid / 256 % 256 :: cid / 65536 % 256 ::
        cid / 16777216 % 256 :: pid % 256 :: pid / 256 % 256 :: pid / 65536 % 256 ::
        pid / 16777216 % 256 :: 0 :: 0 :: 0 :: body := by
    simp
  rw [hcrcarg, ← hc]
  have hfield : c % 256 + 256 * (c / 256 % 256 + 256 * (c / 65536 % 256 + 256 * 0)) = c := by
    omega
  rw [hfield]
  simp only [beq_self_eq_true]
  rw [parseFrames_assemble frames body.length hwf (le_refl _)]
  refine ⟨⟨_, frames⟩, rfl, ?_, ?_, ?_, rfl⟩
  · rw [take12_cons]
    rfl
  · rw [take12_cons]
    simp [Packet.connection_id, readLE, u32le, leVal]
  · rw [take12_cons]
    simp [Packet.packet_id, readLE, u32le, leVal]

/-- Witness for C1 at a concrete Ack-plus-Data packet. -/
theorem packet_parse_assemble_roundtrip_witness :
    (∀ f ∈ [AckFrame.new 12, DataFrame.new 1 2 [9, 9]], f.wf = true) ∧
    ∃ q : Packet,
      Packet.parse ((buildPacket 69 59 [AckFrame.new 12, DataFrame.new 1 2 [9, 9]]).assemble) =
        .ok q ∧
      q.version = (buildPacket 69 59 [AckFrame.new 12, DataFrame.new 1 2 [9, 9]]).version ∧
      q.connection_id =
        (buildPacket 69 59 [AckFrame.new 12, DataFrame.new 1 2 [9, 9]]).connection_id ∧
      q.packet_id = (buildPacket 69 59 [AckFrame.new 12, DataFrame.new 1 2 [9, 9]]).packet_id ∧
      q.frames = (buildPacket 69 59 [AckFrame.new 12, DataFrame.new 1 2 [9, 9]]).frames :=
  ⟨by decide, packet_parse_assemble_roundtrip 69 59 _ (by decide)⟩

theorem exists_twelve (bs : List Nat) (h : 12 ≤ bs.length) :
    ∃ x0 x1 x2 x3 x4 x5 x6 x7 x8 x9 x10 x11 t,
      bs = x0 :: x1 :: x2 :: x3 :: x4 :: x5 :: x6 :: x7 :: x8 :: x9 :: x10 :: x11 :: t := by
  rcases bs with _ | ⟨x0, _ | ⟨x1, _ | ⟨x2, _ | ⟨x3, _ | ⟨x4, _ | ⟨x5, _ | ⟨x6, _ |
    ⟨x7, _ | ⟨x8, _ | ⟨x9, _ | ⟨x10, _ | ⟨x11, t⟩⟩⟩⟩⟩⟩⟩⟩⟩⟩⟩⟩ <;>
    first
      | exact ⟨x0, x1, x2, x3, x4, x5, x6, x7, x8, x9, x10, x11, t, rfl⟩
      | (exfalso; simp at h)

theorem segments_eq_zero3 (bs : List Nat) (h : 12 ≤ bs.length) :
    bs.take 9 ++ [0, 0, 0] ++ bs.drop 12 = zero3 bs := by
  obtain ⟨x0, x1, x2, x3, x4, x5, x6, x7, x8, x9, x10, x11, t, rfl⟩ := exists_twelve bs h
  rw [take9_cons, drop12_cons, zero3_cons]
  simp

theorem validate_checksum_eq (bs : List Nat) (h : 12 ≤ bs.length) :
    Packet.validate_checksum bs =
      some (readLE bs 9 3 == crc32 (zero3 bs) % 16777216) := by
  rw [Packet.validate_checksum, if_neg (by omega), segments_eq_zero3 bs h]

theorem exists_twelve_exact (bs : List Nat) (h : bs.length = 12) :
    ∃ x0 x1 x2 x3 x4 x5 x6 x7 x8 x9 x10 x11,
      bs = [x0, x1, x2, x3, x4, x5, x6, x7, x8, x9, x10, x11] := by
  obtain ⟨x0, x1, x2, x3, x4, x5, x6, x7, x8, x9, x10, x11, t, rfl⟩ :=
    exists_twelve bs (by omega)
  rw [length12_cons] at h
  have ht : t = [] := List.length_eq_zero.mp (by omega)
  subst ht
  exact ⟨x0, x1, x2, x3, x4, x5, x6, x7, x8, x9, x10, x11, rfl⟩

/-- C2. The 3-byte checksum field of `assemble(P)` equals the CRC-32
low 24 bits of the assembled buffer with the three checksum bytes
(offsets 9..11) zeroed; `assemble`d packets validate, and
`Packet::validate_checksum` accepts exactly the buffers satisfying the
same field-equals-CRC-of-zeroed-buffer equation, so both use the same
CRC procedure. -/
theorem assemble_checksum_crc24 (p : Packet) (hp : p.header_bytes.length = 12)
    (bs : List Nat) (hbs : 12 ≤ bs.length) :
    readLE p.assemble 9 3 = crc32 (zero3 p.assemble) % 16777216 ∧
    Packet.validate_checksum p.assemble = some true ∧
    Packet.validate_checksum bs =
      some (readLE bs 9 3 == crc32 (zero3 bs) % 16777216) := by
  obtain ⟨x0, x1, x2, x3, x4, x5, x6, x7, x8, x9, x10, x11, hdr⟩ :=
    exists_twelve_exact p.header_bytes hp
  refine ⟨?_, ?_, validate_checksum_eq bs hbs⟩
  · rw [Packet.assemble, hdr]
    simp only [List.cons_append, List.nil_append]
    rw [zero3_cons]
    set c := crc32 (x0 :: x1 :: x2 :: x3 :: x4 :: x5 :: x6 :: x7 :: x8 :: 0 :: 0 :: 0 ::
      (List.map Frame.assemble p.frames).flatten) % 16777216 with hc
    have hclt : c < 16777216 := Nat.mod_lt _ (by norm_num)
    rw [patch24_cons, readLE93_cons, zero3_cons, ← hc]
    omega
  · rw [Packet.assemble, hdr]
    simp only [List.cons_append, List.nil_append]
    rw [zero3_cons]
    set c := crc32 (x0 :: x1 :: x2 :: x3 :: x4 :: x5 :: x6 :: x7 :: x8 :: 0 :: 0 :: 0 ::
      (List.map Frame.assemble p.frames).flatten) % 16777216 with hc
    have hclt : c < 16777216 := Nat.mod_lt _ (by norm_num)
    rw [patch24_cons]
    rw [validate_checksum_eq _ (by rw [length12_cons]; omega)]
    rw [readLE93_cons, zero3_cons, ← hc]
    have hfield : c % 256 + 256 * (c / 256 % 256 + 256 * (c / 65536 % 256 + 256 * 0)) = c := by
      omega
    rw [hfield]
    simp

/-- Witness for C2 at the empty packet `Packet::new(2, 4)` and its
assembled bytes. -/
theorem assemble_checksum_crc24_witness :
    readLE (Packet.new 2 4).assemble 9 3 =
        crc32 (zero3 (Packet.new 2 4).assemble) % 16777216 ∧
    Packet.validate_checksum (Packet.new 2 4).assemble = some true ∧
    Packet.validate_checksum [1, 2, 0, 0, 0, 4, 0, 0, 0, 210, 23, 83] =
      some (readLE [1, 2, 0, 0, 0, 4, 0, 0, 0, 210, 23, 83] 9 3 ==
        crc32 (zero3 [1, 2, 0, 0, 0, 4, 0, 0, 0, 210, 23, 83]) % 16777216) :=
  assemble_checksum_crc24 (Packet.new 2 4) (by decide)
    [1, 2, 0, 0, 0, 4, 0, 0, 0, 210, 23, 83] (by decide)

theorem u16le_mod (v : Nat) : u16le (v % 65536) = u16le v := by
  simp only [u16le, List.cons.injEq, and_true]
  constructor <;> omega

theorem withPayload_self (f : Frame) : f.withPayload f.payloadBytes = f := by
  cases f <;> rfl

theorem parseOne_assemble_trunc (f : Frame) (hl : f.hasLenPrefix = true)
    (hwf : f.wfHeader = true) :
    ∃ c t, f.assemble = c :: t ∧
      parseOne c (c :: t) =
        .ok (f.withPayload (f.payloadBytes.take (f.payloadBytes.length % 65536)),
             f.payloadBytes.drop (f.payloadBytes.length % 65536)) := by
  cases f with
  | ack b => simp [Frame.hasLenPrefix] at hl
  | exit b => simp [Frame.hasLenPrefix] at hl
  | connIdChange b => simp [Frame.hasLenPrefix] at hl
  | flowControl b => simp [Frame.hasLenPrefix] at hl
  | answer h p =>
    simp only [Frame.wfHeader, Bool.and_eq_true, beq_iff_eq] at hwf
    obtain ⟨hlen, hd⟩ := hwf
    rcases h with _ | ⟨h0, h'⟩
    · simp at hlen
    · simp only [List.getD_cons_zero] at hd
      subst hd
      refine ⟨4, h' ++ (u16le p.length ++ p), by simp [Frame.assemble], ?_⟩
      have harr : (4 : Nat) :: (h' ++ (u16le p.length ++ p)) =
          (4 :: h') ++ u16le p.length ++ p ++ [] := by simp [List.append_assoc]
      rw [harr]
      simpa [parseOne, Frame.withPayload, Frame.payloadBytes] using
        parseLenPrefixed_exact 3 Frame.answer (4 :: h') p [] hlen
  | error h p =>
    simp only [Frame.wfHeader, Bool.and_eq_true, beq_iff_eq] at hwf
    obtain ⟨hlen, hd⟩ := hwf
    rcases h with _ | ⟨h0, h'⟩
    · simp at hlen
    · simp only [List.getD_cons_zero] at hd
      subst hd
      refine ⟨5, h' ++ (u16le p.length ++ p), by simp [Frame.assemble], ?_⟩
      have harr : (5 : Nat) :: (h' ++ (u16le p.length ++ p)) =
          (5 :: h') ++ u16le p.length ++ p ++ [] := by simp [List.append_assoc]
      rw [harr]
      simpa [parseOne, Frame.withPayload, Frame.payloadBytes] using
        parseLenPrefixed_exact 3 Frame.error (5 :: h') p [] hlen
  | data h p =>
    simp only [Frame.wfHeader, Bool.and_eq_true, beq_iff_eq] at hwf
    obtain ⟨hlen, hd⟩ := hwf
    rcases h with _ | ⟨h0, h'⟩
    · simp at hlen
    · simp only [List.getD_cons_zero] at hd
      subst hd
      refine ⟨6, h' ++ (u16le p.length ++ p), by simp [Frame.assemble], ?_⟩
      have harr : (6 : Nat) :: (h' ++ (u16le p.length ++ p)) =
          (6 :: h') ++ u16le p.length ++ p ++ [] := by simp [List.append_assoc]
      rw [harr]
      simpa [parseOne, Frame.withPayload, Frame.payloadBytes] using
        parseLenPrefixed_exact 9 Frame.data (6 :: h') p [] hlen
  | read h p =>
    simp only [Frame.wfHeader, Bool.and_eq_true, beq_iff_eq] at hwf
    obtain ⟨hlen, hd⟩ := hwf
    rcases h with _ | ⟨h0, h'⟩
    · simp at hlen
    · simp only [List.getD_cons_zero] at hd
      subst hd
      refine ⟨7, h' ++ (u16le p.length ++ p), by simp [Frame.assemble], ?_⟩
      have harr : (7 : Nat) :: (h' ++ (u16le p.length ++ p)) =
          (7 :: h') ++ u16le p.length ++ p ++ [] := by simp [List.append_assoc]
      rw [harr]
      simpa [parseOne, Frame.withPayload, Frame.payloadBytes] using
        parseLenPrefixed_exact 20 Frame.read (7 :: h') p [] hlen
  | write h p =>
    simp only [Frame.wfHeader, Bool.and_eq_true, beq_iff_eq] at hwf
    obtain ⟨hlen, hd⟩ := hwf
    rcases h with _ | ⟨h0, h'⟩
    · simp at hlen
    · simp only [List.getD_cons_zero] at hd
      subst hd
      refine ⟨8, h' ++ (u16le p.length ++ p), by simp [Frame.assemble], ?_⟩
      have harr : (8 : Nat) :: (h' ++ (u16le p.length ++ p)) =
          (8 :: h') ++ u16le p.length ++ p ++ [] := by simp [List.append_assoc]
      rw [harr]
      simpa [parseOne, Frame.withPayload, Frame.payloadBytes] using
        parseLenPrefixed_exact 15 Frame.write (8 :: h') p [] hlen
  | checksum h p =>
    simp only [Frame.wfHeader, Bool.and_eq_true, beq_iff_eq] at hwf
    obtain ⟨hlen, hd⟩ := hwf
    rcases h with _ | ⟨h0, h'⟩
    · simp at hlen
    · simp only [List.getD_cons_zero] at hd
      subst hd
      refine ⟨9, h' ++ (u16le p.length ++ p), by simp [Frame.assemble], ?_⟩
      have harr : (9 : Nat) :: (h' ++ (u16le p.length ++ p)) =
          (9 :: h') ++ u16le p.length ++ p ++ [] := by simp [List.append_assoc]
      rw [harr]
      simpa [parseOne, Frame.withPayload, Frame.payloadBytes] using
        parseLenPrefixed_exact 3 Frame.checksum (9 :: h') p [] hlen
  | stat h p =>
    simp only [Frame.wfHeader, Bool.and_eq_true, beq_iff_eq] at hwf
    obtain ⟨hlen, hd⟩ := hwf
    rcases h with _ | ⟨h0, h'⟩
    · simp at hlen
    · simp only [List.getD_cons_zero] at hd
      subst hd
      refine ⟨10, h' ++ (u16le p.length ++ p), by simp [Frame.assemble], ?_⟩
      have harr : (10 : Nat) :: (h' ++ (u16le p.length ++ p)) =
          (10 :: h') ++ u16le p.length ++ p ++ [] := by simp [List.append_assoc]
      rw [harr]
      simpa [parseOne, Frame.withPayload, Frame.payloadBytes] using
        parseLenPrefixed_exact 3 Frame.stat (10 :: h') p [] hlen
  | list h p =>
    simp only [Frame.wfHeader, Bool.and_eq_true, beq_iff_eq] at hwf
    obtain ⟨hlen, hd⟩ := hwf
    rcases h with _ | ⟨h0, h'⟩
    · simp at hlen
    · simp only [List.getD_cons_zero] at hd
      subst hd
      refine ⟨11, h' ++ (u16le p.length ++ p), by simp [Frame.assemble], ?_⟩
      have harr : (11 : Nat) :: (h' ++ (u16le p.length ++ p)) =
          (11 :: h') ++ u16le p.length ++ p ++ [] := by simp [List.append_assoc]
      rw [harr]
      simpa [parseOne, Frame.withPayload, Frame.payloadBytes] using
        parseLenPrefixed_exact 3 Frame.list (11 :: h') p [] hlen

/-- C10. Every length-prefixed frame variant (Answer, Error, Data, Read,
Write, Checksum, Stat, List) assembles to its header, the payload
length reduced modulo 65536 as a 2-byte little-endian prefix, and the
full payload bytes; consequently parsing the assembled bytes recovers
the frame with nothing left over exactly when the payload is shorter
than 65536 bytes. -/
theorem frame_len_prefix_mod_roundtrip (f : Frame) (hl : f.hasLenPrefix = true)
    (hwf : f.wfHeader = true) :
    f.assemble = f.headerBytes ++ u16le (f.payloadBytes.length % 65536) ++ f.payloadBytes ∧
    (parseOne (f.assemble.getD 0 0) f.assemble = .ok (f, []) ↔
      f.payloadBytes.length < 65536) := by
  constructor
  · cases f <;>
      simp [Frame.hasLenPrefix, Frame.assemble, Frame.headerBytes,
        Frame.payloadBytes, u16le_mod] at hl ⊢
  · obtain ⟨c, t, hct, hok⟩ := parseOne_assemble_trunc f hl hwf
    rw [hct]
    simp only [List.getD_cons_zero]
    rw [hok]
    constructor
    · intro h
      rw [RustResult.ok.injEq, Prod.mk.injEq] at h
      obtain ⟨-, hdrop⟩ := h
      have hlen := congrArg List.length hdrop
      simp only [List.length_drop, List.length_nil] at hlen
      omega
    · intro hlt
      rw [Nat.mod_eq_of_lt hlt, List.take_length, List.drop_length, withPayload_self]

/-- Witness for C10 at a concrete Answer frame. -/
theorem frame_len_prefix_mod_roundtrip_witness :
    (AnswerFrame.new 7 [1, 2, 3]).assemble =
        (AnswerFrame.new 7 [1, 2, 3]).headerBytes ++
          u16le ((AnswerFrame.new 7 [1, 2, 3]).payloadBytes.length % 65536) ++
          (AnswerFrame.new 7 [1, 2, 3]).payloadBytes ∧
    (parseOne ((AnswerFrame.new 7 [1, 2, 3]).assemble.getD 0 0)
        (AnswerFrame.new 7 [1, 2, 3]).assemble = .ok (AnswerFrame.new 7 [1, 2, 3], []) ↔
      (AnswerFrame.new 7 [1, 2, 3]).payloadBytes.length < 65536) :=
  frame_len_prefix_mod_roundtrip (AnswerFrame.new 7 [1, 2, 3]) (by decide) (by decide)

theorem readLoop_done (sid : Nat) (file : List Nat) (rt cursor : Nat) (fuel : Nat)
    (h : 2 ≤ fuel) :
    readLoop sid file rt cursor rt false fuel = some [.data sid rt []] := by
  obtain ⟨n, rfl⟩ : ∃ n, fuel = n + 2 := ⟨fuel - 2, by omega⟩
  simp [readLoop]

theorem readLoop_step_cross (sid : Nat) (file : List Nat) (rt cursor off : Nat)
    (fin : Bool) (n : Nat) (hlt : off < rt)
    (hcross : rt ≤ off + min 128 (file.length - cursor)) :
    readLoop sid file rt cursor off fin (n + 1) =
      (readLoop sid file rt (cursor + min 128 (file.length - cursor)) rt fin n).map
        (fun rest => .data sid off
          (((file.drop cursor).take (min 128 (file.length - cursor))).take (rt - off)) ::
            rest) := by
  have h2 : ¬ rt ≤ off := by omega
  rw [readLoop, if_neg (fun h => h2 h.1)]
  simp only [if_neg h2]
  rw [if_pos hcross]
  have ha : min 128 (file.length - cursor) - (off + min 128 (file.length - cursor) - rt) =
      rt - off := by omega
  rw [ha]
  have hb : off + (rt - off) = rt := by omega
  rw [hb]
  cases readLoop sid file rt (cursor + min 128 (file.length - cursor)) rt fin n <;> rfl

theorem readLoop_step_in (sid : Nat) (file : List Nat) (rt cursor off : Nat)
    (fin : Bool) (n : Nat) (hlt : off < rt)
    (hin : off + min 128 (file.length - cursor) < rt) :
    readLoop sid file rt cursor off fin (n + 1) =
      (readLoop sid file rt (cursor + min 128 (file.length - cursor))
          (off + min 128 (file.length - cursor)) fin n).map
        (fun rest => .data sid off
          ((file.drop cursor).take (min 128 (file.length - cursor))) :: rest) := by
  have h2 : ¬ rt ≤ off := by omega
  rw [readLoop, if_neg (fun h => h2 h.1)]
  simp only [if_neg h2]
  rw [if_neg (by omega)]
  rw [List.take_take, Nat.min_self]
  cases readLoop sid file rt (cursor + min 128 (file.length - cursor))
      (off + min 128 (file.length - cursor)) fin n <;> rfl

theorem readLoop_spec (sid : Nat) (file : List Nat) (rt : Nat) (hrt : rt ≤ file.length) :
    ∀ fuel off, off ≤ rt → rt - off + 2 ≤ fuel →
    ∃ ds, readLoop sid file rt off off false fuel = some (ds ++ [.data sid rt []]) ∧
      chunkedFrom sid off ds ∧
      payloadConcat ds = (file.drop off).take (rt - off) := by
  intro fuel
  induction fuel with
  | zero => intro off _ h2; omega
  | succ n ih =>
    intro off hoff hfuel
    by_cases heq : off = rt
    · subst heq
      refine ⟨[], ?_, trivial, ?_⟩
      · rw [readLoop_done sid file off off (n + 1) (by omega)]
        simp
      · simp [payloadConcat]
    · have hlt : off < rt := lt_of_le_of_ne hoff heq
      have hraw1 : 1 ≤ min 128 (file.length - off) := by omega
      set raw := min 128 (file.length - off) with hraw
      by_cases hcross : rt ≤ off + raw
      · rw [readLoop_step_cross sid file rt off off false n hlt hcross]
        rw [readLoop_done sid file rt (off + raw) n (by omega)]
        have hlen : (((file.drop off).take raw).take (rt - off)).length = rt - off := by
          simp only [List.length_take, List.length_drop]
          omega
        refine ⟨[.data sid off (((file.drop off).take raw).take (rt - off))], rfl, ?_, ?_⟩
        · refine ⟨rfl, rfl, ?_, ?_⟩
          · intro hnil
            rw [hnil] at hlen
            simp at hlen
            omega
          · rw [hlen]
            have hb : off + (rt - off) = rt := by omega
            rw [hb]
            trivial
        · simp only [payloadConcat, List.append_nil]
          rw [List.take_take]
          congr 1
          omega
      · push_neg at hcross
        rw [readLoop_step_in sid file rt off off false n hlt hcross]
        obtain ⟨ds, hrun, hch, hpc⟩ := ih (off + raw) (by omega) (by omega)
        rw [hrun]
        have hlen : ((file.drop off).take raw).length = raw := by
          simp only [List.length_take, List.length_drop]
          omega
        refine ⟨.data sid off ((file.drop off).take raw) :: ds, rfl, ?_, ?_⟩
        · refine ⟨rfl, rfl, ?_, ?_⟩
          · intro hnil
            rw [hnil] at hlen
            simp at hlen
            omega
          · rw [hlen]
            exact hch
        · simp only [payloadConcat]
          rw [hpc]
          have hsum : rt - off = raw + (rt - (off + raw)) := by omega
          rw [hsum, List.take_add, List.drop_drop]

/-- C3. For a Read command on a readable file with
`offset + length ≤ file_size`, the handler emits Data frames on its
stream with consecutive offsets starting at the command's offset and
nonempty payloads whose concatenation is the file slice
`[offset, read_target)` — where `read_target = offset + length`, or the
file size when `length == 0` — followed by exactly one final zero-payload
(EOF) Data frame; in particular `offset == file_size` with
`length == 0` yields the single EOF Data frame, and the handler exits. -/
theorem read_emits_chunks_then_eof (cmd : ReadCmd) (file : List Nat)
    (hb : cmd.offset + cmd.length ≤ file.length) :
    readTarget cmd file.length =
      (if cmd.length = 0 then file.length else cmd.offset + cmd.length) ∧
    (∃ ds, handleRead cmd (.ok file) =
        some (ds ++ [.data cmd.streamId (readTarget cmd file.length) []]) ∧
      chunkedFrom cmd.streamId cmd.offset ds ∧
      payloadConcat ds =
        (file.drop cmd.offset).take (readTarget cmd file.length - cmd.offset)) ∧
    (cmd.offset = file.length → cmd.length = 0 →
      handleRead cmd (.ok file) = some [.data cmd.streamId file.length []]) := by
  have hrt_le : readTarget cmd file.length ≤ file.length := by
    rw [readTarget]
    split <;> omega
  have hoff_le : cmd.offset ≤ readTarget cmd file.length := by
    rw [readTarget]
    split <;> omega
  have hopen : handleRead cmd (.ok file) =
      readLoop cmd.streamId file (readTarget cmd file.length)
        cmd.offset cmd.offset false (file.length + 2) := by
    rw [handleRead, if_neg (by omega)]
  obtain ⟨ds, hrun, hch, hpc⟩ :=
    readLoop_spec cmd.streamId file (readTarget cmd file.length) hrt_le
      (file.length + 2) cmd.offset hoff_le (by omega)
  refine ⟨?_, ⟨ds, by rw [hopen, hrun], hch, hpc⟩, ?_⟩
  · rw [readTarget]
    split
    · rfl
    · omega
  · intro ho hl
    have hrt : readTarget cmd file.length = file.length := by
      rw [readTarget, if_pos hl]
    have hds : ds = [] := by
      have hpc0 : payloadConcat ds = [] := by
        rw [hpc, hrt, ho]
        simp
      cases ds with
      | nil => rfl
      | cons d ds2 =>
        cases d with
        | data s o p =>
          obtain ⟨-, -, hp, -⟩ := hch
          rw [payloadConcat] at hpc0
          exact absurd (List.append_eq_nil.mp hpc0).1 hp
        | answer s p => exact absurd hch (by simp [chunkedFrom])
        | error s m => exact absurd hch (by simp [chunkedFrom])
        | ack i => exact absurd hch (by simp [chunkedFrom])
    rw [hopen, hrun, hds, hrt]
    simp

/-- Witness for C3: reading two bytes at offset 1 of a 3-byte file. -/
theorem read_emits_chunks_then_eof_witness :
    (1 + 2 ≤ ([10, 20, 30] : List Nat).length) ∧
    (readTarget ⟨69, 1, 2⟩ ([10, 20, 30] : List Nat).length =
      (if (2 : Nat) = 0 then ([10, 20, 30] : List Nat).length else 1 + 2) ∧
    (∃ ds, handleRead ⟨69, 1, 2⟩ (.ok [10, 20, 30]) =
        some (ds ++ [.data 69 (readTarget ⟨69, 1, 2⟩ ([10, 20, 30] : List Nat).length) []]) ∧
      chunkedFrom 69 1 ds ∧
      payloadConcat ds =
        (([10, 20, 30] : List Nat).drop 1).take
          (readTarget ⟨69, 1, 2⟩ ([10, 20, 30] : List Nat).length - 1)) ∧
    ((1 : Nat) = ([10, 20, 30] : List Nat).length → (2 : Nat) = 0 →
      handleRead ⟨69, 1, 2⟩ (.ok [10, 20, 30]) =
        some [.data 69 ([10, 20, 30] : List Nat).length []])) :=
  ⟨by decide, read_emits_chunks_then_eof ⟨69, 1, 2⟩ [10, 20, 30] (by decide)⟩

/-- Counterexample to C4: with expected offset 0, a Data frame at
offset 7 makes the Write arm emit an Error frame ("Write offset
mismatch, aborting...") and stop — the in-order Data frame and the EOF
frame behind it are never processed and nothing is written — rather
than emit a duplicate Ack and continue. -/
theorem write_mismatch_counterexample :
    handleWrite ⟨420, 0, 2⟩ (.ok []) [.data 7 [1], .data 0 [9], .data 1 []] =
      ([], [SFrame.error 420 "Write offset mismatch, aborting..."]) := rfl

/-- C4 (amended). When a Data frame arrives on a Write stream with a
nonempty payload whose offset differs from the expected offset, the
handler discards the frame without writing it, emits an Error frame
`"Write offset mismatch, aborting..."` — not a duplicate Ack — and
breaks out of the receive loop, processing no further frames. -/
theorem write_mismatch_aborts (sid expected : Nat) (written : List Nat)
    (o : Nat) (p : List Nat) (rest : List InFrame)
    (hp : p ≠ []) (ho : expected ≠ o) :
    writeLoop sid expected written (.data o p :: rest) =
      (written, [SFrame.error sid "Write offset mismatch, aborting..."]) := by
  rw [writeLoop, if_neg (by simpa using hp), if_pos ho]

/-- Witness for C4's amended statement at a concrete mismatched frame. -/
theorem write_mismatch_aborts_witness :
    (([1] : List Nat) ≠ [] ∧ (0 : Nat) ≠ 7) ∧
    writeLoop 420 0 [] [.data 7 [1], .data 0 [9]] =
      ([], [SFrame.error 420 "Write offset mismatch, aborting..."]) :=
  ⟨⟨by decide, by decide⟩,
    write_mismatch_aborts 420 0 [] 7 [1] [.data 0 [9]] (by decide) (by decide)⟩

/-- C5 (code bug): `Packet::parse` is not total.  On a CRC-valid
datagram whose frame section is a truncated Answer frame (the single
byte `4`), the `Bytes::split_to` calls of `AnswerFrame::parse` run past
the end of the buffer and panic instead of returning the error the spec
requires; an unknown type id (here 12) does return the
"Unknown frame type" error. -/
theorem parse_truncated_frame_panics :
    Packet.parse truncatedAnswerInput = .panicked ∧
    Packet.parse unknownTypeInput = .errored "Unknown frame type" := by
  constructor <;> decide

theorem length_flatten_map_toBE4 (l : List Nat) :
    ((l.map toBE4).flatten).length = 4 * l.length := by
  induction l with
  | nil => simp
  | cons x xs ih =>
    simp only [List.map_cons, List.flatten_cons, List.length_append, ih, toBE4]
    simp
    omega

theorem shaCompress_length (h block : List Nat) (hh : h.length = 8) :
    (shaCompress h block).length = 8 := by
  simp only [shaCompress, List.length_zipWith, shaStateToList]
  simp [hh]

theorem foldl_shaCompress_length (blocks : List (List Nat)) :
    ∀ h : List Nat, h.length = 8 → (blocks.foldl shaCompress h).length = 8 := by
  induction blocks with
  | nil => intro h hh; simpa using hh
  | cons b bs ih =>
    intro h hh
    rw [List.foldl_cons]
    exact ih _ (shaCompress_length h b hh)

theorem sha256_length (ms : List Nat) : (sha256 ms).length = 32 := by
  rw [sha256, length_flatten_map_toBE4,
    foldl_shaCompress_length (chunksOf 64 (shaPad ms)) shaH0 (by rfl)]

/-- C6. The Checksum arm replies on its own stream with exactly one
Answer frame whose payload is the 32-byte SHA-256 digest of the file's
contents (the model's digest of the repository's Lorem-ipsum test file
matches the spec's expected hash), and on open failure with exactly one
Error frame carrying the OS error string (e.g.
"No such file or directory (os error 2)"), then terminates. -/
theorem checksum_emits_digest_answer (sid : Nat) (contents : List Nat) (e : String) :
    handleChecksum sid (.ok contents) = [SFrame.answer sid (sha256 contents)] ∧
    (sha256 contents).length = 32 ∧
    handleChecksum sid (.error e) = [SFrame.error sid e] ∧
    sha256 loremBytes = loremDigest :=
  ⟨rfl, sha256_length contents, rfl, by decide⟩

/-- Counterexample to C7: a complete, in-order Write transfer (command
accepted, two Data frames, EOF) emits no frames at all — in particular
no Ack for the Write command and none for the EOF Data frame. -/
theorem write_no_ack_counterexample :
    handleWrite ⟨420, 0, 4⟩ (.ok []) [.data 0 [97, 98], .data 2 [99, 100], .data 4 []] =
      ([97, 98, 99, 100], []) := rfl

theorem writeLoop_emits_only_error_frames (sid : Nat) :
    ∀ (input : List InFrame) (expected : Nat) (written : List Nat),
    ∀ f ∈ (writeLoop sid expected written input).2, ∃ s m, f = SFrame.error s m := by
  intro input
  induction input with
  | nil =>
    intro e w f hf
    rw [writeLoop] at hf
    simp only [List.mem_singleton] at hf
    exact ⟨_, _, hf⟩
  | cons a rest ih =>
    intro e w f hf
    cases a with
    | other =>
      rw [writeLoop] at hf
      simp only [List.mem_singleton] at hf
      exact ⟨_, _, hf⟩
    | data o p =>
      rw [writeLoop] at hf
      by_cases h0 : p.length = 0
      · rw [if_pos h0] at hf
        simp at hf
      · rw [if_neg h0] at hf
        by_cases hmm : e ≠ o
        · rw [if_pos hmm] at hf
          simp only [List.mem_singleton] at hf
          exact ⟨_, _, hf⟩
        · rw [if_neg hmm] at hf
          exact ih _ _ f hf

/-- C7 (amended). The Write arm of `stream_handler` emits no Ack frame
at any point — neither for the accepted Write command before the
Data-receiving loop nor for the EOF Data frame: every frame it ever
emits is an Error frame. -/
theorem write_emits_only_error_frames (cmd : WriteCmd)
    (openResult : Except String (List Nat)) (input : List InFrame) :
    ∀ f ∈ (handleWrite cmd openResult input).2, ∃ s m, f = SFrame.error s m := by
  cases openResult with
  | error e =>
    intro f hf
    simp only [handleWrite, List.mem_singleton] at hf
    exact ⟨_, _, hf⟩
  | ok contents =>
    intro f hf
    rw [handleWrite] at hf
    by_cases hsz : contents.length ≠ cmd.offset
    · rw [if_pos hsz] at hf
      simp only [List.mem_singleton] at hf
      exact ⟨_, _, hf⟩
    · rw [if_neg hsz] at hf
      exact writeLoop_emits_only_error_frames cmd.streamId input cmd.offset [] f hf

/-- Witness for C7's amended statement at a failed open. -/
theorem write_emits_only_error_frames_witness :
    SFrame.error 420 "boom" ∈ (handleWrite ⟨420, 0, 0⟩ (.error "boom") []).2 ∧
    ∃ s m, SFrame.error 420 "boom" = SFrame.error s m :=
  ⟨by decide, write_emits_only_error_frames ⟨420, 0, 0⟩ (.error "boom") [] _ (by decide)⟩

/-- Counterexample to C8: on a duplicate/out-of-sequence packet id
(last received 5, arriving 3), the RX task emits the duplicate Ack for
5 and then an additional Ack for the packet's own id 3 — two Ack
frames, not exactly one. -/
theorem rx_duplicate_extra_ack_counterexample :
    rxStep 5 3 = (5, [AckFrame.new 5, AckFrame.new 3]) ∧
    (rxStep 5 3).2.length ≠ 1 :=
  ⟨rfl, by decide⟩

/-- C8 (amended). When the RX task (with `last_recvd_id ≠ 0`) receives
a packet whose id is not `last_recvd_id + 1`, it leaves `last_recvd_id`
unchanged and emits the duplicate Ack for `last_recvd_id` followed by
the unconditional per-packet Ack for the arriving packet's own id. -/
theorem rx_out_of_sequence_acks (last pid : Nat) (h0 : last ≠ 0)
    (hdup : pid ≠ last + 1) :
    rxStep last pid = (last, [AckFrame.new last, AckFrame.new pid]) := by
  rw [rxStep, if_neg h0, if_pos hdup]

/-- Witness for C8's amended statement at `last = 7`, `pid = 9`. -/
theorem rx_out_of_sequence_acks_witness :
    ((7 : Nat) ≠ 0 ∧ (9 : Nat) ≠ 7 + 1) ∧
    rxStep 7 9 = (7, [AckFrame.new 7, AckFrame.new 9]) :=
  ⟨⟨by decide, by decide⟩, rx_out_of_sequence_acks 7 9 (by decide) (by decide)⟩

/-- Counterexample to C9: the congestion window is initialised to 4,
not to 4 × MSS = 4096. -/
theorem cwnd_init_counterexample : initCwnd.1 = 4 ∧ initCwnd.1 ≠ 4096 :=
  ⟨rfl, by decide⟩

/-- C9 (amended). `connection_handler` initialises its congestion state
to `(cwnd, ssthresh, in_congestion_avoidance) = (4, u32::MAX, false)` —
a congestion window of 4, not 4096 — with the flow window starting at
2048, so the first `min(flow_window, cwnd)` in-flight cap the TX pacer
samples is 4. -/
theorem cwnd_init_values :
    initCwnd = (4, 4294967295, false) ∧ min initFlowWnd initCwnd.1 = 4 :=
  ⟨rfl, rfl⟩

end RFT
